import Mathlib

/-!
# Request-mediation core of the API gateway

A shallow embedding of the gateway's decision stages:

* `decisionlog.LogDecision` (internal/decisionlog/decisionlog.go),
* `chaos.Middleware`, `chaos.Set`, `chaos.Get`, `chaos.Clear`, `chaos.AutoRecover`
  (internal/chaos),
* `ratelimit.RateLimiter.Middleware` (internal/ratelimit/ratelimit.go),
* `proxy.Router.AddRoute`, `proxy.Router.ServeHTTP` (internal/proxy/router.go),
* the handler composition of `main` (cmd/gateway/main.go).

An `http.Handler` is a function from a request and the state of the world to the
state of the world.  The world holds the counter store, the process-wide fault
policy, the results of the two `rand.Intn(100)` call sites, and the chronological
trace of everything a handler did that is observable from outside (decision-log
lines, response writes, sleeps, counter-store commands, proxied requests).
Go strings are Lean strings; Go `int` is a 64-bit integer, kept as an `Int`
with explicit wrap-around where the source computes.
-/

namespace Gateway

/-! ## Go integers and `strconv` -/

/-- Largest Go `int` on a 64-bit platform. -/
def maxInt64 : Int := 9223372036854775807

/-- Smallest Go `int` on a 64-bit platform. -/
def minInt64 : Int := -9223372036854775808

/-- Two's-complement wrap-around of 64-bit signed arithmetic. -/
def wrapInt64 (x : Int) : Int := (x + 9223372036854775808) % 18446744073709551616 - 9223372036854775808

/-- The two kinds of `strconv.NumError`. -/
inductive NumError where
  | ErrSyntax
  | ErrRange
  deriving DecidableEq, Repr

/-- A byte in `'0'..'9'` (every byte of a non-ASCII character is outside that range,
as is the character itself). -/
def isDigit (c : Char) : Bool := decide (48 ≤ c.toNat) && decide (c.toNat ≤ 57)

/-- The loop of the fast path of `strconv.Atoi`:
`ch -= '0'; if ch > 9 { return 0, syntaxError }; n = n*10 + int(ch)`. -/
def atoiFastLoop : List Char → Int → Int × Option NumError
  | [], n => (n, none)
  | ch :: rest, n =>
    if isDigit ch then atoiFastLoop rest (n * 10 + ((ch.toNat : Int) - 48))
    else (0, some NumError.ErrSyntax)

/-- Cutoff of `strconv.ParseUint` in base 10: `maxUint64/10 + 1`. -/
def parseUintCutoff : Nat := 18446744073709551615 / 10 + 1

/-- The largest `uint64`, `maxVal` of `strconv.ParseUint` at bit size 64. -/
def maxUint64 : Nat := 18446744073709551615

/-- The digit loop of `strconv.ParseUint(s, 10, 64)`: a non-digit is a syntax error
with value 0; an overflow of `n*10` or of `n+d` is a range error with value `maxVal`. -/
def parseUintLoop : List Char → Nat → Nat × Option NumError
  | [], n => (n, none)
  | c :: rest, n =>
    if !isDigit c then (0, some NumError.ErrSyntax)
    else if n ≥ parseUintCutoff then (maxUint64, some NumError.ErrRange)
    else
      let n10 := n * 10
      let n1 := (n10 + (c.toNat - 48)) % 18446744073709551616
      if n1 < n10 ∨ n1 > maxUint64 then (maxUint64, some NumError.ErrRange)
      else parseUintLoop rest n1

/-- Go `strconv.ParseUint(s, 10, 64)`. -/
def ParseUint (s : List Char) : Nat × Option NumError :=
  match s with
  | [] => (0, some NumError.ErrSyntax)
  | _ => parseUintLoop s 0

/-- Go `strconv.ParseInt(s, 10, 0)` on a 64-bit platform: the leading sign is picked
off, the rest goes through `ParseUint`; a syntax error yields 0, a value out of range
yields the largest-magnitude integer of the sign together with `ErrRange`. -/
def ParseInt (s : List Char) : Int × Option NumError :=
  match s with
  | [] => (0, some NumError.ErrSyntax)
  | c0 :: tl =>
    let neg := decide (c0 = '-')
    let body := if c0 = '+' then tl else if c0 = '-' then tl else s
    let (un, err) := ParseUint body
    if err = some NumError.ErrSyntax then (0, err)
    else if !neg && decide (un ≥ 9223372036854775808) then (maxInt64, some NumError.ErrRange)
    else if neg && decide (un > 9223372036854775808) then (minInt64, some NumError.ErrRange)
    else (if neg then -(un : Int) else (un : Int), none)

/-- Go `strconv.Atoi` on a 64-bit platform.  Strings of 1 to 18 bytes take the fast path
(optional sign, then digits); all others go through `ParseInt(s, 10, 0)`. -/
def Atoi (s : String) : Int × Option NumError :=
  let sLen := s.utf8ByteSize
  if 0 < sLen ∧ sLen < 19 then
    match s.toList with
    | [] => (0, some NumError.ErrSyntax)
    | c0 :: tl =>
      let signed := decide (c0 = '-') || decide (c0 = '+')
      let body := if signed then tl else c0 :: tl
      if signed && body.isEmpty then (0, some NumError.ErrSyntax)
      else
        let (n, err) := atoiFastLoop body 0
        if err.isSome then (0, err)
        else (if c0 = '-' then -n else n, none)
  else ParseInt s.toList

/-- Go `strconv.Itoa` / `strconv.AppendInt(_, n, 10)`: the decimal representation. -/
def Itoa (n : Int) : String := toString n

/-! ## The shared counter store (Redis, through go-redis) -/

/-- Error of a go-redis command: `redis.Nil` (key absent) or any other failure. -/
inductive RedisError where
  | Nil
  | Other
  deriving DecidableEq, Repr

/-- State of the counter store: whether it can be reached, and its string keys. -/
structure Redis where
  up : Bool
  data : List (String × String)
  deriving DecidableEq, Repr

/-- Write of one key in the key space. -/
def kvSet (key val : String) : List (String × String) → List (String × String)
  | [] => [(key, val)]
  | (k, v) :: rest => if k = key then (key, val) :: rest else (k, v) :: kvSet key val rest

/-- Lookup of one key in the key space. -/
def kvGet (key : String) : List (String × String) → Option String
  | [] => none
  | (k, v) :: rest => if k = key then some v else kvGet key rest

/-- The integer a stored string stands for, when it is the decimal representation
of a 64-bit signed integer (the only strings Redis accepts as integers). -/
def redisInt (v : String) : Option Int :=
  let n := (ParseInt v.toList).1
  if Itoa n = v then some n else none

/-- `client.Get(ctx, key).Result()`: the value and `nil`, or `""` and `redis.Nil` when the
key is absent, or `""` and another error when the store cannot be reached. -/
def Redis.Get (c : Redis) (key : String) : String × Option RedisError :=
  if c.up then
    match kvGet key c.data with
    | some v => (v, none)
    | none => ("", some RedisError.Nil)
  else ("", some RedisError.Other)

/-- `client.Set(ctx, key, value, expiration)` with an `int` value: stores its decimal
representation.  The expiry only matters once time passes, see `Redis.expire`. -/
def Redis.Set (c : Redis) (key : String) (value : Int) : Redis :=
  if c.up then { c with data := kvSet key (Itoa value) c.data } else c

/-- `client.Decr(ctx, key)`: Redis DECR.  An absent key counts as 0; a value that is not
a 64-bit integer, or whose decrement would overflow, is left as it is (the command fails). -/
def Redis.Decr (c : Redis) (key : String) : Redis :=
  if c.up then
    match kvGet key c.data with
    | none => { c with data := kvSet key (Itoa (-1)) c.data }
    | some v =>
      match redisInt v with
      | none => c
      | some n => if n = minInt64 then c else { c with data := kvSet key (Itoa (n - 1)) c.data }
  else c

/-- Expiry of a key at the end of its time-to-live. -/
def Redis.expire (c : Redis) (key : String) : Redis :=
  { c with data := c.data.filter (fun kv => kv.1 ≠ key) }

/-! ## Requests, decision events and the world -/

/-- The tenant record attached to a request context by tenant resolution. -/
structure Tenant where
  ID : String
  deriving DecidableEq, Repr

/-- What the stages read from an `*http.Request`: method, `URL.Path`, the two headers
copied into decision events, and the tenant carried by the request context
(`tenant.FromContext`), absent when none was resolved. -/
structure Request where
  Method : String
  Path : String
  RequestID : String
  TenantHeader : String
  tenant : Option Tenant
  deriving DecidableEq, Repr

/-- A value of a `map[string]any` of extra fields. -/
inductive Any where
  | str (s : String)
  | int (n : Int)
  deriving DecidableEq, Repr

namespace decisionlog

/-- Kinds of decision. -/
inductive DecisionType where
  | ALLOW
  | BLOCK
  | ROUTE
  | CHAOS
  deriving DecidableEq, Repr

/-- One structured decision-log line (the timestamp is left out). -/
structure DecisionLog where
  Decision : DecisionType
  Reason : String
  Tenant : String
  Route : String
  Method : String
  RequestID : String
  ExtraFields : List (String × Any)
  deriving DecidableEq, Repr

end decisionlog

/-- A command sent to the counter store. -/
inductive RedisCmd where
  | get (key : String)
  | set (key : String) (value : Int) (expiration : Int)
  | decr (key : String)
  deriving DecidableEq, Repr

/-- Everything a handler does that can be observed from outside. -/
inductive Effect where
  | log (d : decisionlog.DecisionLog)
  | httpError (msg : String) (code : Nat)
  | notFound
  | sleep (d : Int)
  | redis (cmd : RedisCmd)
  | forward (target : String) (req : Request)
  deriving DecidableEq, Repr

namespace chaos

/-- The fault policy (`chaos.Config`).  `Delay` is a `time.Duration` in nanoseconds,
`ExpiresAt` a `time.Time` as nanoseconds since the zero time, so that the zero time is 0. -/
structure Config where
  Enabled : Bool
  Route : String
  Delay : Int
  ErrorRate : Int
  DropRate : Int
  ExpiresAt : Int
  deriving DecidableEq, Repr

/-- The zero value `Config{}`. -/
def Config.empty : Config := ⟨false, "", 0, 0, 0, 0⟩

end chaos

/-- State of the world a handler runs in: the counter store, the package-level fault
policy `config`, what `rand.Intn(100)` returns at the error site and at the drop site of
`chaos.Middleware` when it is called there, and the trace so far, oldest first. -/
structure World where
  redis : Redis
  config : chaos.Config
  errorDraw : Fin 100
  dropDraw : Fin 100
  trace : List Effect
  deriving DecidableEq, Repr

/-- An `http.Handler`. -/
abbrev Handler := Request → World → World

/-- Appends one effect to the trace. -/
def World.emit (w : World) (e : Effect) : World := { w with trace := w.trace ++ [e] }

/-- `http.Error(w, msg, code)`. -/
def httpError (msg : String) (code : Nat) (w : World) : World := w.emit (Effect.httpError msg code)

/-- `http.NotFound(w, req)`. -/
def httpNotFound (w : World) : World := w.emit Effect.notFound

namespace decisionlog

/-- Emits one decision-log line for request `r` (`decisionlog.LogDecision`). -/
def LogDecision (r : Request) (decision : DecisionType) (reason : String)
    (extra : List (String × Any)) (w : World) : World :=
  w.emit (Effect.log
    { Decision := decision, Reason := reason, Tenant := r.TenantHeader, Route := r.Path,
      Method := r.Method, RequestID := r.RequestID, ExtraFields := extra })

end decisionlog

/-! ## Fault injection (internal/chaos) -/

namespace chaos

/-- Replaces the policy wholesale (`chaos.Set`). -/
def Set (cfg : Config) (w : World) : World := { w with config := cfg }

/-- Reads the policy (`chaos.Get`). -/
def Get (w : World) : Config := w.config

/-- Resets the policy to its zero value (`chaos.Clear`). -/
def Clear (w : World) : World := { w with config := Config.empty }

/-- One iteration of the loop of `chaos.AutoRecover`, run at time `now` on the policy:
`if config.Enabled && !config.ExpiresAt.IsZero() && time.Now().After(config.ExpiresAt)`
then `config = Config{}`. -/
def sweep (now : Int) (config : Config) : Config :=
  if config.Enabled && !decide (config.ExpiresAt = 0) && decide (now > config.ExpiresAt)
  then Config.empty else config

/-- One iteration of the loop of `chaos.AutoRecover` on the world. -/
def AutoRecover (now : Int) (w : World) : World := { w with config := sweep now w.config }

/-- The delay step of `chaos.Middleware`: `if cfg.Delay > 0` it logs "Injecting delay"
with `cfg.Delay.Milliseconds()` and sleeps for `cfg.Delay`. -/
def injectDelay (cfg : Config) (r : Request) (w : World) : World :=
  if cfg.Delay > 0 then
    (decisionlog.LogDecision r .CHAOS "Injecting delay"
      [("delay_ms", Any.int (cfg.Delay.tdiv 1000000))] w).emit (Effect.sleep cfg.Delay)
  else w

/-- The handler `chaos.Middleware(next)`. -/
def Middleware (next : Handler) : Handler := fun r w =>
  let cfg := Get w
  if !cfg.Enabled then
    next r (decisionlog.LogDecision r .CHAOS "Chaos disabled" [] w)
  else if cfg.Route ≠ "" ∧ cfg.Route ≠ r.Path then
    next r (decisionlog.LogDecision r .CHAOS "Chaos not active for this route" [] w)
  else
    let w1 := injectDelay cfg r w
    if cfg.ErrorRate > 0 ∧ ((w1.errorDraw.val : Int) < cfg.ErrorRate) then
      httpError "Service Unavailable (chaos)" 503
        (decisionlog.LogDecision r .CHAOS "Injecting error" [("error_code", Any.int 503)] w1)
    else if cfg.DropRate > 0 ∧ ((w1.dropDraw.val : Int) < cfg.DropRate) then
      decisionlog.LogDecision r .CHAOS "Dropping request" [] w1
    else
      next r w1

end chaos

/-! ## Admission control (internal/ratelimit) -/

namespace ratelimit

/-- The limiter's configuration (`ratelimit.RateLimiter`; the store client is the
world's `redis`). -/
structure RateLimiter where
  limit : Int
  refill : Int
  deriving DecidableEq, Repr

/-- `ratelimit.NewRateLimiter`. -/
def NewRateLimiter (limit : Int) (refill : Int) : RateLimiter := ⟨limit, refill⟩

/-- The handler `rl.Middleware(next)`. -/
def RateLimiter.Middleware (rl : RateLimiter) (next : Handler) : Handler := fun r w =>
  match r.tenant with
  | none =>
    httpError "Tenant not found" 401
      (decisionlog.LogDecision r .BLOCK "Tenant not found for rate limiting" [] w)
  | some t =>
    let key := "ratelimit:" ++ t.ID
    let res := w.redis.Get key
    let w1 := w.emit (Effect.redis (RedisCmd.get key))
    if res.2 = some RedisError.Nil then
      let v := wrapInt64 (rl.limit - 1)
      let w2 := { w1 with redis := w1.redis.Set key v }.emit (Effect.redis (RedisCmd.set key v rl.refill))
      next r (decisionlog.LogDecision r .ALLOW "Rate limit OK (first request)"
        [("tenant", Any.str t.ID), ("limit", Any.int rl.limit), ("used", Any.int 1)] w2)
    else
      let tokens := (Atoi res.1).1
      if tokens ≤ 0 then
        httpError "Rate limit exceeded" 429
          (decisionlog.LogDecision r .BLOCK "Rate limit exceeded"
            [("tenant", Any.str t.ID), ("limit", Any.int rl.limit), ("used", Any.int tokens)] w1)
      else
        let w2 := { w1 with redis := w1.redis.Decr key }.emit (Effect.redis (RedisCmd.decr key))
        next r (decisionlog.LogDecision r .ALLOW "Rate limit OK"
          [("tenant", Any.str t.ID), ("limit", Any.int rl.limit), ("used", Any.int tokens)] w2)

end ratelimit

/-! ## Dispatch (internal/proxy) -/

namespace proxy

/-- Go `strings.HasPrefix(s, pfx)`. -/
def HasPrefix (s pfx : String) : Bool := pfx.toList.isPrefixOf s.toList

/-- A route binding. -/
structure Route where
  Prefix : String
  Handler : Handler

/-- The router: its bindings in registration order. -/
structure Router where
  routes : List Route

/-- `proxy.NewRouter`. -/
def NewRouter : Router := ⟨[]⟩

/-- `Router.AddRoute`: appends the binding. -/
def Router.AddRoute (r : Router) (pfx : String) (handler : Handler) : Router :=
  ⟨r.routes ++ [⟨pfx, handler⟩]⟩

/-- The loop of `Router.ServeHTTP` over the bindings still to try, and what follows it. -/
def serveRoutes : List Route → Handler
  | [], req, w =>
    httpNotFound (decisionlog.LogDecision req .BLOCK "Route not found" [] w)
  | route :: rest, req, w =>
    if HasPrefix req.Path route.Prefix then
      route.Handler req
        (decisionlog.LogDecision req .ROUTE "Routing to backend" [("target", Any.str route.Prefix)] w)
    else serveRoutes rest req w

/-- `Router.ServeHTTP`. -/
def Router.ServeHTTP (r : Router) : Handler := serveRoutes r.routes

end proxy

/-! ## The composition root (cmd/gateway/main.go) -/

namespace tenant

/-- Modelled from the spec: `tenant.Middleware` of package internal/tenant, which is not
among the sources.  Tenant resolution attaches the tenant identifier of the request to
the request context before admission runs; the tenant header is optional, and its
absence is left to the admission stage, which finds no tenant in the context. -/
def Middleware (next : Handler) : Handler := fun r w =>
  next { r with tenant := if r.TenantHeader = "" then none else some ⟨r.TenantHeader⟩ } w

end tenant

namespace proxy

/-- Modelled from the spec: `proxy.ProxyHandler` of package internal/proxy, whose file is
not among the sources.  The backend-forwarding handler is an opaque request-handling
capability invoked with the original request; it takes no decision of its own. -/
def ProxyHandler (target : String) : Handler := fun r w => w.emit (Effect.forward target r)

end proxy

namespace middleware

/-- Modelled from the spec: `middleware.Logging`, a cross-cutting wrapper that is not
among the sources; it emits no decision event and invokes the wrapped handler. -/
def Logging (next : Handler) : Handler := fun r w => next r w

/-- The handler `middleware.Metrics(next)`: it invokes `next` once and then records
counters and a latency sample, none of which is part of the world modelled here. -/
def Metrics (next : Handler) : Handler := fun r w => next r w

/-- Modelled from the spec: `middleware.Tracing`, a cross-cutting wrapper that is not
among the sources; it emits no decision event and invokes the wrapped handler. -/
def Tracing (next : Handler) : Handler := fun r w => next r w

end middleware

namespace main

/-- `rl := ratelimit.NewRateLimiter(rdb, 5, time.Minute)`. -/
def rl : ratelimit.RateLimiter := ratelimit.NewRateLimiter 5 60000000000

/-- `userHandler, _ := proxy.ProxyHandler("http://localhost:9001")`. -/
def userHandler : Handler := proxy.ProxyHandler "http://localhost:9001"

/-- `orderHandler, _ := proxy.ProxyHandler("http://localhost:9002")`. -/
def orderHandler : Handler := proxy.ProxyHandler "http://localhost:9002"

/-- `chaos.Middleware(tenant.Middleware(rl.Middleware(userHandler)))`. -/
def securedUserHandler : Handler :=
  chaos.Middleware (tenant.Middleware (rl.Middleware userHandler))

/-- `chaos.Middleware(tenant.Middleware(rl.Middleware(orderHandler)))`. -/
def securedOrderHandler : Handler :=
  chaos.Middleware (tenant.Middleware (rl.Middleware orderHandler))

/-- The router of `main` with its two bindings, in registration order. -/
def router : proxy.Router :=
  (proxy.NewRouter.AddRoute "/users" securedUserHandler).AddRoute "/orders" securedOrderHandler

/-- `middleware.Logging(middleware.Metrics(middleware.Tracing(router)))`. -/
def finalHandler : Handler :=
  middleware.Logging (middleware.Metrics (middleware.Tracing router.ServeHTTP))

end main

/-! ## Observations on traces -/

/-- The decision events of a trace, oldest first. -/
def decisions : List Effect → List decisionlog.DecisionLog
  | [] => []
  | Effect.log d :: rest => d :: decisions rest
  | _ :: rest => decisions rest

/-- The requests handed to a backend, oldest first. -/
def forwarded : List Effect → List Request
  | [] => []
  | Effect.forward _ r :: rest => r :: forwarded rest
  | _ :: rest => forwarded rest

/-- The status codes of the failure responses written, oldest first. -/
def failures : List Effect → List Nat
  | [] => []
  | Effect.httpError _ code :: rest => code :: failures rest
  | Effect.notFound :: rest => 404 :: failures rest
  | _ :: rest => failures rest

/-- The decision events one request produces when `h` handles it in world `w`. -/
def eventsOf (h : Handler) (r : Request) (w : World) : List decisionlog.DecisionLog :=
  decisions (h r { w with trace := [] }).trace

/-- Handles the requests one after another. -/
def serveAll (h : Handler) : List Request → World → World
  | [], w => w
  | r :: rest, w => serveAll h rest (h r w)

/-- The bindings of a router after a sequence of `AddRoute` calls. -/
def addRoutes (rt : proxy.Router) (bs : List (String × Handler)) : proxy.Router :=
  bs.foldl (fun acc b => acc.AddRoute b.1 b.2) rt

/-- The integer under key `used` of an extra-fields mapping. -/
def usedField : List (String × Any) → Option Int
  | [] => none
  | (k, Any.int n) :: rest => if k = "used" then some n else usedField rest
  | (_, Any.str _) :: rest => usedField rest

/-- The `used` values carried by the admit events of a sequence, oldest first. -/
def admitUsed : List decisionlog.DecisionLog → List Int
  | [] => []
  | d :: rest =>
    if d.Decision = decisionlog.DecisionType.ALLOW then
      match usedField d.ExtraFields with
      | some n => n :: admitUsed rest
      | none => admitUsed rest
    else admitUsed rest

/-- What the claims read off a decision event: its kind, its reason, its `used` value. -/
def eventSummary (d : decisionlog.DecisionLog) : decisionlog.DecisionType × String × Option Int :=
  (d.Decision, d.Reason, usedField d.ExtraFields)

/-- Each value is greater than the next one. -/
def strictlyDecreasing : List Int → Bool
  | a :: b :: rest => decide (a > b) && strictlyDecreasing (b :: rest)
  | _ => true

/-- An event of the fault-injection stage. -/
def isChaosEvent (d : decisionlog.DecisionLog) : Bool :=
  decide (d.Decision = decisionlog.DecisionType.CHAOS)

/-- The route event of the dispatcher. -/
def isRouteEvent (d : decisionlog.DecisionLog) : Bool :=
  decide (d.Decision = decisionlog.DecisionType.ROUTE)

/-- An admit or block event of the admission stage. -/
def isAdmissionEvent (d : decisionlog.DecisionLog) : Bool :=
  decide (d.Decision = decisionlog.DecisionType.ALLOW) ||
  (decide (d.Decision = decisionlog.DecisionType.BLOCK) &&
    (decide (d.Reason = "Rate limit exceeded") ||
      decide (d.Reason = "Tenant not found for rate limiting")))

/-- Every `p`-event of the sequence comes strictly before every `q`-event: once a
`q`-event has occurred, neither it nor any later event is a `p`-event. -/
def precedes (p q : decisionlog.DecisionLog → Bool) : List decisionlog.DecisionLog → Bool
  | [] => true
  | x :: xs => (!q x || (!p x && xs.all (fun y => !p y))) && precedes p q xs

/-- The events of a secured handler: chaos events, with at most one admission event, which
then is the last event. -/
def chaosThenAdmission : List decisionlog.DecisionLog → Bool
  | [] => true
  | [a] => isChaosEvent a || isAdmissionEvent a
  | c :: rest => isChaosEvent c && chaosThenAdmission rest

/-- The events of one request through the router and a secured handler: the route event
naming `target` comes first, the events of the secured handler follow. -/
def routeThenSecured (target : String) (r : Request) : List decisionlog.DecisionLog → Bool
  | [] => false
  | ρ :: rest =>
    decide (ρ = ⟨.ROUTE, "Routing to backend", r.TenantHeader, r.Path, r.Method, r.RequestID,
      [("target", Any.str target)]⟩) && chaosThenAdmission rest

/-! ## Fault injection: inactive and out-of-scope policies -/

/-- C6: a policy that is not enabled, whatever its other fields hold, and an enabled policy
whose route scope is non-empty and differs from the request path, pass the request through
for all random draws: the stage sleeps not, writes no response, and hands the request to the
downstream handler exactly once (after its one pass-through event); the empty policy
does exactly what a non-enabled policy does. -/
theorem chaos_passthrough_when_inactive_or_out_of_scope (next : Handler) (r : Request) (w : World) :
    (w.config.Enabled = false →
      chaos.Middleware next r w = next r (decisionlog.LogDecision r .CHAOS "Chaos disabled" [] w)) ∧
    (w.config.Enabled = true → w.config.Route ≠ "" → w.config.Route ≠ r.Path →
      chaos.Middleware next r w =
        next r (decisionlog.LogDecision r .CHAOS "Chaos not active for this route" [] w)) ∧
    chaos.Middleware next r (chaos.Clear w) =
      next r (decisionlog.LogDecision r .CHAOS "Chaos disabled" [] (chaos.Clear w)) := by
  refine ⟨?_, ?_, ?_⟩
  · intro h
    simp [chaos.Middleware, chaos.Get, h]
  · intro h h1 h2
    simp [chaos.Middleware, chaos.Get, h, h1, h2]
  · simp [chaos.Middleware, chaos.Get, chaos.Clear, chaos.Config.empty]

/-- C6 at a concrete input: a disabled policy with all rates at 100, and an enabled policy
scoped to `/x` on a request to `/y`. -/
theorem chaos_passthrough_when_inactive_or_out_of_scope_witness :
    chaos.Middleware (proxy.ProxyHandler "b") ⟨"GET", "/y", "", "", none⟩
        ⟨⟨true, []⟩, ⟨false, "", 5, 100, 100, 0⟩, 0, 0, []⟩ =
      proxy.ProxyHandler "b" ⟨"GET", "/y", "", "", none⟩
        (decisionlog.LogDecision ⟨"GET", "/y", "", "", none⟩ .CHAOS "Chaos disabled" []
          ⟨⟨true, []⟩, ⟨false, "", 5, 100, 100, 0⟩, 0, 0, []⟩) ∧
    chaos.Middleware (proxy.ProxyHandler "b") ⟨"GET", "/y", "", "", none⟩
        ⟨⟨true, []⟩, ⟨true, "/x", 5, 100, 100, 0⟩, 0, 0, []⟩ =
      proxy.ProxyHandler "b" ⟨"GET", "/y", "", "", none⟩
        (decisionlog.LogDecision ⟨"GET", "/y", "", "", none⟩ .CHAOS
          "Chaos not active for this route" []
          ⟨⟨true, []⟩, ⟨true, "/x", 5, 100, 100, 0⟩, 0, 0, []⟩) :=
  ⟨(chaos_passthrough_when_inactive_or_out_of_scope _ _ _).1 rfl,
   (chaos_passthrough_when_inactive_or_out_of_scope _ _ _).2.1 rfl (by decide) (by decide)⟩

/-! ## Fault injection: the active policy -/

/-- The delay step leaves the random draws as they are. -/
theorem injectDelay_errorDraw (cfg : chaos.Config) (r : Request) (w : World) :
    (chaos.injectDelay cfg r w).errorDraw = w.errorDraw := by
  unfold chaos.injectDelay
  split <;> rfl

/-- The delay step leaves the random draws as they are. -/
theorem injectDelay_dropDraw (cfg : chaos.Config) (r : Request) (w : World) :
    (chaos.injectDelay cfg r w).dropDraw = w.dropDraw := by
  unfold chaos.injectDelay
  split <;> rfl

/-- C5: under an enabled policy whose route scope is empty or equals the request path, and
for every error draw and drop draw in [0,100), the stage decides in strict order after the
delay step: an error draw below the error rate answers 503 "Service Unavailable (chaos)"
without the downstream handler; otherwise a drop draw below the drop rate writes nothing
and does not reach the downstream handler; otherwise the downstream handler is invoked
exactly once.  With an error rate of 100 the answer is always the 503. -/
theorem chaos_error_then_drop_then_next (next : Handler) (r : Request) (w : World)
    (hen : w.config.Enabled = true) (hscope : w.config.Route = "" ∨ w.config.Route = r.Path) :
    ((w.errorDraw.val : Int) < w.config.ErrorRate →
      chaos.Middleware next r w =
        httpError "Service Unavailable (chaos)" 503
          (decisionlog.LogDecision r .CHAOS "Injecting error" [("error_code", Any.int 503)]
            (chaos.injectDelay w.config r w))) ∧
    (¬ (w.errorDraw.val : Int) < w.config.ErrorRate →
      (w.dropDraw.val : Int) < w.config.DropRate →
      chaos.Middleware next r w =
        decisionlog.LogDecision r .CHAOS "Dropping request" [] (chaos.injectDelay w.config r w)) ∧
    (¬ (w.errorDraw.val : Int) < w.config.ErrorRate →
      ¬ (w.dropDraw.val : Int) < w.config.DropRate →
      chaos.Middleware next r w = next r (chaos.injectDelay w.config r w)) ∧
    (w.config.ErrorRate = 100 →
      chaos.Middleware next r w =
        httpError "Service Unavailable (chaos)" 503
          (decisionlog.LogDecision r .CHAOS "Injecting error" [("error_code", Any.int 503)]
            (chaos.injectDelay w.config r w))) := by
  have hroute : ¬ (w.config.Route ≠ "" ∧ w.config.Route ≠ r.Path) := by
    rcases hscope with h | h <;> simp [h]
  have herr : ∀ rate : Int, ((w.errorDraw.val : Int) < rate) → 0 < rate := by
    intro rate h; omega
  have hdrop : ∀ rate : Int, ((w.dropDraw.val : Int) < rate) → 0 < rate := by
    intro rate h; omega
  have hlt : (w.errorDraw.val : Int) < 100 := by
    have := w.errorDraw.isLt; omega
  have key : ∀ h1 : (w.errorDraw.val : Int) < w.config.ErrorRate,
      chaos.Middleware next r w =
        httpError "Service Unavailable (chaos)" 503
          (decisionlog.LogDecision r .CHAOS "Injecting error" [("error_code", Any.int 503)]
            (chaos.injectDelay w.config r w)) := by
    intro h1
    simp only [chaos.Middleware, chaos.Get, hen, hroute, injectDelay_errorDraw]
    simp [h1, herr _ h1]
  refine ⟨key, ?_, ?_, ?_⟩
  · intro h1 h2
    simp only [chaos.Middleware, chaos.Get, hen, hroute, injectDelay_errorDraw,
      injectDelay_dropDraw]
    simp [h1, h2, hdrop _ h2]
  · intro h1 h2
    simp only [chaos.Middleware, chaos.Get, hen, hroute, injectDelay_errorDraw,
      injectDelay_dropDraw]
    simp [h1, h2]
  · intro h100
    exact key (by rw [h100]; exact hlt)

/-- C5 at a concrete input: the policy `{route: "/orders", error_rate: 100}` on a request to
`/orders` with error draw 99 answers the 503. -/
theorem chaos_error_then_drop_then_next_witness :
    chaos.Middleware (proxy.ProxyHandler "b") ⟨"GET", "/orders", "", "t1", none⟩
        ⟨⟨true, []⟩, ⟨true, "/orders", 0, 100, 0, 0⟩, 99, 0, []⟩ =
      httpError "Service Unavailable (chaos)" 503
        (decisionlog.LogDecision ⟨"GET", "/orders", "", "t1", none⟩ .CHAOS "Injecting error"
          [("error_code", Any.int 503)]
          (chaos.injectDelay ⟨true, "/orders", 0, 100, 0, 0⟩ ⟨"GET", "/orders", "", "t1", none⟩
            ⟨⟨true, []⟩, ⟨true, "/orders", 0, 100, 0, 0⟩, 99, 0, []⟩)) :=
  (chaos_error_then_drop_then_next (proxy.ProxyHandler "b") ⟨"GET", "/orders", "", "t1", none⟩
    ⟨⟨true, []⟩, ⟨true, "/orders", 0, 100, 0, 0⟩, 99, 0, []⟩ rfl (Or.inr rfl)).2.2.2 rfl

/-! ## Fault injection: the sweeper -/

/-- C7: one iteration of the sweeper at time `now`, with no request handled, resets the
policy to the empty policy when the policy is enabled, its expiry is set, and `now` is after
the expiry; in every other case it leaves the policy, and the rest of the world,
unchanged. -/
theorem sweep_resets_exactly_the_expired (now : Int) (w : World) :
    (w.config.Enabled = true ∧ w.config.ExpiresAt ≠ 0 ∧ w.config.ExpiresAt < now →
      chaos.AutoRecover now w = { w with config := chaos.Config.empty }) ∧
    (¬ (w.config.Enabled = true ∧ w.config.ExpiresAt ≠ 0 ∧ w.config.ExpiresAt < now) →
      chaos.AutoRecover now w = w) := by
  constructor
  · rintro ⟨h1, h2, h3⟩
    simp [chaos.AutoRecover, chaos.sweep, h1, h2, h3]
  · intro h
    have : chaos.sweep now w.config = w.config := by
      unfold chaos.sweep
      split
      · rename_i hc
        simp only [Bool.and_eq_true, Bool.not_eq_true', decide_eq_false_iff_not,
          decide_eq_true_eq] at hc
        exact absurd ⟨hc.1.1, hc.1.2, by omega⟩ h
      · rfl
    simp [chaos.AutoRecover, this]

/-- C7 at a concrete input: an enabled policy that expired at 5 is reset by a sweep at 6. -/
theorem sweep_resets_exactly_the_expired_witness :
    chaos.AutoRecover 6 ⟨⟨true, []⟩, ⟨true, "/orders", 0, 100, 0, 5⟩, 0, 0, []⟩ =
      ⟨⟨true, []⟩, chaos.Config.empty, 0, 0, []⟩ :=
  (sweep_resets_exactly_the_expired 6 ⟨⟨true, []⟩, ⟨true, "/orders", 0, 100, 0, 5⟩, 0, 0, []⟩).1
    ⟨rfl, by decide, by decide⟩

/-- C3 (the path of the fault-injection stage that emits nothing): under the enabled policy
with no route scope, no delay and both rates at 0, which is what an enable call with an
empty body installs, the stage hands every request straight to the downstream handler and
emits no decision event of its own, whatever the draws and the store. -/
theorem chaos_active_pass_emits_no_event (next : Handler) (r : Request) (w : World) :
    chaos.Middleware next r (chaos.Set ⟨true, "", 0, 0, 0, 0⟩ w) =
      next r (chaos.Set ⟨true, "", 0, 0, 0, 0⟩ w) ∧
    eventsOf (chaos.Middleware (fun _ v => v)) r (chaos.Set ⟨true, "", 0, 0, 0, 0⟩ w) = [] := by
  constructor
  · simp [chaos.Middleware, chaos.Get, chaos.Set, chaos.injectDelay]
  · simp [eventsOf, chaos.Middleware, chaos.Get, chaos.Set, chaos.injectDelay, decisions]

/-! ## Admission: requests without a tenant -/

/-- C8: for a request whose context carries no tenant, the admission stage emits the block
event "Tenant not found for rate limiting", fails the request with 401, and does nothing
else: the downstream handler is not invoked, no command goes to the counter store, and
the store is left as it was. -/
theorem admission_rejects_missing_tenant (rl : ratelimit.RateLimiter) (next : Handler)
    (r : Request) (w : World) (h : r.tenant = none) :
    rl.Middleware next r w =
      { w with trace := w.trace ++
          [Effect.log ⟨.BLOCK, "Tenant not found for rate limiting", r.TenantHeader, r.Path,
              r.Method, r.RequestID, []⟩,
            Effect.httpError "Tenant not found" 401] } ∧
    (rl.Middleware next r w).redis = w.redis := by
  simp [ratelimit.RateLimiter.Middleware, h, httpError, decisionlog.LogDecision, World.emit]

/-- C8 at a concrete input: a request without tenant against a store holding a counter. -/
theorem admission_rejects_missing_tenant_witness :
    (ratelimit.NewRateLimiter 5 60).Middleware (proxy.ProxyHandler "b")
        ⟨"GET", "/users", "r1", "", none⟩ ⟨⟨true, [("ratelimit:t1", "3")]⟩, chaos.Config.empty, 0, 0, []⟩ =
      ⟨⟨true, [("ratelimit:t1", "3")]⟩, chaos.Config.empty, 0, 0,
        [Effect.log ⟨.BLOCK, "Tenant not found for rate limiting", "", "/users", "GET", "r1", []⟩,
          Effect.httpError "Tenant not found" 401]⟩ :=
  (admission_rejects_missing_tenant (ratelimit.NewRateLimiter 5 60) (proxy.ProxyHandler "b")
    ⟨"GET", "/users", "r1", "", none⟩
    ⟨⟨true, [("ratelimit:t1", "3")]⟩, chaos.Config.empty, 0, 0, []⟩ rfl).1

/-! ## Dispatch -/

/-- `AddRoute` keeps the registration order. -/
theorem addRoutes_routes (bs : List (String × Handler)) (rt : proxy.Router) :
    (addRoutes rt bs).routes = rt.routes ++ bs.map (fun b => ⟨b.1, b.2⟩) := by
  induction bs generalizing rt with
  | nil => simp [addRoutes]
  | cons b rest ih =>
    have := ih (rt.AddRoute b.1 b.2)
    simp only [addRoutes, List.foldl_cons] at this ⊢
    rw [this]
    simp [proxy.Router.AddRoute]

/-- The loop skips the bindings that do not match. -/
theorem serveRoutes_skip (pre rest : List proxy.Route) (req : Request) (w : World)
    (h : ∀ x ∈ pre, proxy.HasPrefix req.Path x.Prefix = false) :
    proxy.serveRoutes (pre ++ rest) req w = proxy.serveRoutes rest req w := by
  induction pre with
  | nil => rfl
  | cons x xs ih =>
    have hx := h x (List.mem_cons_self _ _)
    simp only [List.cons_append, proxy.serveRoutes, hx]
    exact ih (fun y hy => h y (List.mem_cons_of_mem _ hy))

/-- A list with a matching element splits at its first matching element. -/
theorem first_match_split {α : Type} (p : α → Bool) (l : List α) (h : ∃ x ∈ l, p x = true) :
    ∃ pre b post, l = pre ++ b :: post ∧ (∀ x ∈ pre, p x = false) ∧ p b = true := by
  induction l with
  | nil =>
    obtain ⟨x, hx, _⟩ := h
    cases hx
  | cons a rest ih =>
    by_cases ha : p a = true
    · refine ⟨[], a, rest, rfl, ?_, ha⟩
      intro x hx
      cases hx
    · have hrest : ∃ x ∈ rest, p x = true := by
        obtain ⟨x, hx, hpx⟩ := h
        rcases List.mem_cons.1 hx with rfl | hx'
        · exact absurd hpx ha
        · exact ⟨x, hx', hpx⟩
      obtain ⟨pre, b, post, hsplit, hpre, hb⟩ := ih hrest
      refine ⟨a :: pre, b, post, by rw [hsplit]; rfl, ?_, hb⟩
      intro x hx
      rcases List.mem_cons.1 hx with rfl | hx'
      · simpa using ha
      · exact hpre x hx'

/-- C2: for every sequence of bindings registered with `AddRoute` and every request,
`ServeHTTP` hands the request to the handler of the first binding, in registration order,
whose prefix is a prefix of the path (after the route event naming that prefix), and
answers not-found, after the block event, when no binding's prefix is a prefix of the
path; as soon as some binding matches there is such a first binding, so not-found is
answered by the router exactly when none matches.  Matching is `strings.HasPrefix`, not
equality.  With bindings `[("/a", h1), ("/ab", h2)]`, `/ab` goes to `h1` and `/z` is not
found. -/
theorem router_first_registered_prefix_wins (bs : List (String × Handler)) (req : Request)
    (w : World) :
    (∀ pre b post, bs = pre ++ b :: post →
      (∀ x ∈ pre, proxy.HasPrefix req.Path x.1 = false) →
      proxy.HasPrefix req.Path b.1 = true →
      (addRoutes proxy.NewRouter bs).ServeHTTP req w =
        b.2 req (decisionlog.LogDecision req .ROUTE "Routing to backend" [("target", Any.str b.1)] w)) ∧
    ((∀ x ∈ bs, proxy.HasPrefix req.Path x.1 = false) →
      (addRoutes proxy.NewRouter bs).ServeHTTP req w =
        httpNotFound (decisionlog.LogDecision req .BLOCK "Route not found" [] w)) ∧
    ((∃ x ∈ bs, proxy.HasPrefix req.Path x.1 = true) →
      ∃ pre b post, bs = pre ++ b :: post ∧
        (∀ x ∈ pre, proxy.HasPrefix req.Path x.1 = false) ∧
        proxy.HasPrefix req.Path b.1 = true) ∧
    (∀ s pfx : String, proxy.HasPrefix s pfx = true ↔ ∃ t, s.toList = pfx.toList ++ t) ∧
    (∀ h1 h2 : Handler, req.Path = "/ab" →
      (addRoutes proxy.NewRouter [("/a", h1), ("/ab", h2)]).ServeHTTP req w =
        h1 req (decisionlog.LogDecision req .ROUTE "Routing to backend" [("target", Any.str "/a")] w)) ∧
    (∀ h1 h2 : Handler, req.Path = "/z" →
      (addRoutes proxy.NewRouter [("/a", h1), ("/ab", h2)]).ServeHTTP req w =
        httpNotFound (decisionlog.LogDecision req .BLOCK "Route not found" [] w)) := by
  refine ⟨?_, ?_, first_match_split (fun x => proxy.HasPrefix req.Path x.1) bs, ?_, ?_, ?_⟩
  · intro pre b post hbs hpre hb
    subst hbs
    simp only [proxy.Router.ServeHTTP, addRoutes_routes, proxy.NewRouter, List.nil_append,
      List.map_append, List.map_cons]
    rw [serveRoutes_skip]
    · simp [proxy.serveRoutes, hb]
    · intro x hx
      obtain ⟨y, hy, rfl⟩ := List.mem_map.1 hx
      exact hpre y hy
  · intro hall
    simp only [proxy.Router.ServeHTTP, addRoutes_routes, proxy.NewRouter, List.nil_append]
    have := serveRoutes_skip (bs.map (fun b => (⟨b.1, b.2⟩ : proxy.Route))) [] req w (by
      intro x hx
      obtain ⟨y, hy, rfl⟩ := List.mem_map.1 hx
      exact hall y hy)
    rw [List.append_nil] at this
    rw [this]
    rfl
  · intro s pfx
    simp only [proxy.HasPrefix, List.isPrefixOf_iff_prefix]
    constructor
    · rintro ⟨t, ht⟩
      exact ⟨t, ht.symm⟩
    · rintro ⟨t, ht⟩
      exact ⟨t, ht.symm⟩
  · intro h1 h2 hp
    simp only [proxy.Router.ServeHTTP, addRoutes_routes, proxy.NewRouter, List.nil_append,
      List.map_cons, List.map_nil, proxy.serveRoutes, hp]
    have : proxy.HasPrefix "/ab" "/a" = true := by decide
    simp [this]
  · intro h1 h2 hp
    simp only [proxy.Router.ServeHTTP, addRoutes_routes, proxy.NewRouter, List.nil_append,
      List.map_cons, List.map_nil, proxy.serveRoutes, hp]
    have ha : proxy.HasPrefix "/z" "/a" = false := by decide
    have hab : proxy.HasPrefix "/z" "/ab" = false := by decide
    simp [ha, hab]

/-- C2 at a concrete input: with `[("/a", h1), ("/ab", h2), ("/", h3)]` a request to `/ab`
reaches the first binding and not the longer or the exact one. -/
theorem router_first_registered_prefix_wins_witness :
    (addRoutes proxy.NewRouter
        [("/a", proxy.ProxyHandler "h1"), ("/ab", proxy.ProxyHandler "h2"),
          ("/", proxy.ProxyHandler "h3")]).ServeHTTP ⟨"GET", "/ab", "", "", none⟩
        ⟨⟨true, []⟩, chaos.Config.empty, 0, 0, []⟩ =
      proxy.ProxyHandler "h1" ⟨"GET", "/ab", "", "", none⟩
        (decisionlog.LogDecision ⟨"GET", "/ab", "", "", none⟩ .ROUTE "Routing to backend"
          [("target", Any.str "/a")] ⟨⟨true, []⟩, chaos.Config.empty, 0, 0, []⟩) :=
  (router_first_registered_prefix_wins
    [("/a", proxy.ProxyHandler "h1"), ("/ab", proxy.ProxyHandler "h2"),
      ("/", proxy.ProxyHandler "h3")] ⟨"GET", "/ab", "", "", none⟩
    ⟨⟨true, []⟩, chaos.Config.empty, 0, 0, []⟩).1 [] ("/a", proxy.ProxyHandler "h1")
    [("/ab", proxy.ProxyHandler "h2"), ("/", proxy.ProxyHandler "h3")] rfl
    (by intro x hx; cases hx) (by decide)

/-! ## Decimal strings: what is written to the store is read back -/

theorem digitChar_spec (d : Nat) (h : d < 10) :
    isDigit (Nat.digitChar d) = true ∧ (Nat.digitChar d).toNat - 48 = d ∧
      Nat.digitChar d ≠ '-' ∧ Nat.digitChar d ≠ '+' := by
  interval_cases d <;> decide

theorem atoiFastLoop_toDigitsCore (fuel : Nat) :
    ∀ (n : Nat) (ds : List Char), n < fuel →
      atoiFastLoop (Nat.toDigitsCore 10 fuel n ds) 0 = atoiFastLoop ds (n : Int) := by
  induction fuel with
  | zero => intro n ds h; omega
  | succ f ih =>
    intro n ds h
    have hd := digitChar_spec (n % 10) (Nat.mod_lt _ (by decide))
    have hstep : ∀ a : Nat, a = n / 10 →
        atoiFastLoop (Nat.digitChar (n % 10) :: ds) (a : Int) = atoiFastLoop ds (n : Int) := by
      intro a ha
      simp only [atoiFastLoop, hd.1, if_true]
      congr 1
      have h48 : 48 ≤ (Nat.digitChar (n % 10)).toNat := by
        have := hd.1
        simp only [isDigit, Bool.and_eq_true, decide_eq_true_eq] at this
        exact this.1
      have := hd.2.1
      omega
    simp only [Nat.toDigitsCore]
    split
    · rename_i h0
      have := hstep 0 h0.symm
      simpa using this
    · rename_i h0
      rw [ih (n / 10) _ (by omega)]
      exact hstep (n / 10) rfl

theorem parseUintLoop_toDigitsCore (fuel : Nat) :
    ∀ (n : Nat) (ds : List Char), n < fuel → n < 18446744073709551616 →
      parseUintLoop (Nat.toDigitsCore 10 fuel n ds) 0 = parseUintLoop ds n := by
  induction fuel with
  | zero => intro n ds h; omega
  | succ f ih =>
    intro n ds h hn
    have hd := digitChar_spec (n % 10) (Nat.mod_lt _ (by decide))
    have hstep : ∀ a : Nat, a = n / 10 →
        parseUintLoop (Nat.digitChar (n % 10) :: ds) a = parseUintLoop ds n := by
      intro a ha
      have hcut : ¬ a ≥ parseUintCutoff := by
        simp only [parseUintCutoff]; omega
      have hval : (a * 10 + ((Nat.digitChar (n % 10)).toNat - 48)) % 18446744073709551616 = n := by
        rw [hd.2.1, Nat.mod_eq_of_lt] <;> omega
      simp only [parseUintLoop, hd.1, hcut, hval, maxUint64]
      have h1 : ¬ (n < a * 10 ∨ n > 18446744073709551615) := by omega
      simp [h1]
    simp only [Nat.toDigitsCore]
    split
    · rename_i h0
      exact hstep 0 h0.symm
    · rename_i h0
      rw [ih (n / 10) _ (by omega) (by omega)]
      exact hstep (n / 10) rfl

theorem toDigitsCore_head (fuel : Nat) :
    ∀ (n : Nat) (ds : List Char),
      (fuel = 0 → ∃ c tl, ds = c :: tl ∧ c ≠ '-' ∧ c ≠ '+') →
      ∃ c tl, Nat.toDigitsCore 10 fuel n ds = c :: tl ∧ c ≠ '-' ∧ c ≠ '+' := by
  induction fuel with
  | zero => intro n ds h; exact h rfl
  | succ f ih =>
    intro n ds _
    have hd := digitChar_spec (n % 10) (Nat.mod_lt _ (by decide))
    simp only [Nat.toDigitsCore]
    split
    · exact ⟨_, _, rfl, hd.2.2.1, hd.2.2.2⟩
    · exact ih _ _ (fun _ => ⟨_, _, rfl, hd.2.2.1, hd.2.2.2⟩)

theorem Itoa_toList (m : Nat) : (Itoa (m : Int)).toList = Nat.toDigits 10 m := rfl

theorem ParseInt_Itoa (m : Nat) (h : (m : Int) ≤ maxInt64) :
    ParseInt (Itoa (m : Int)).toList = ((m : Int), none) := by
  rw [Itoa_toList]
  obtain ⟨c, tl, hl, hc1, hc2⟩ := toDigitsCore_head (m + 1) m [] (by omega)
  have hloop := parseUintLoop_toDigitsCore (m + 1) m [] (by omega)
    (by simp only [maxInt64] at h; omega)
  change Nat.toDigits 10 m = c :: tl at hl
  change parseUintLoop (Nat.toDigits 10 m) 0 = _ at hloop
  rw [hl] at hloop ⊢
  have hm : ¬ (m ≥ 9223372036854775808) := by simp only [maxInt64] at h; omega
  simp [ParseInt, ParseUint, hc1, hc2, hloop, parseUintLoop, hm]

theorem Atoi_Itoa (m : Nat) (h : (m : Int) ≤ maxInt64) :
    Atoi (Itoa (m : Int)) = ((m : Int), none) := by
  unfold Atoi
  simp only []
  split
  · rw [Itoa_toList]
    obtain ⟨c, tl, hl, hc1, hc2⟩ := toDigitsCore_head (m + 1) m [] (by omega)
    have hloop := atoiFastLoop_toDigitsCore (m + 1) m [] (by omega)
    change Nat.toDigits 10 m = c :: tl at hl
    change atoiFastLoop (Nat.toDigits 10 m) 0 = _ at hloop
    rw [hl] at hloop ⊢
    simp [hc1, hc2, hloop, atoiFastLoop]
  · exact ParseInt_Itoa m h

theorem redisInt_Itoa (m : Nat) (h : (m : Int) ≤ maxInt64) :
    redisInt (Itoa (m : Int)) = some (m : Int) := by
  unfold redisInt
  rw [ParseInt_Itoa m h]
  simp

/-- Arithmetic on a Go `int` that stays in range does not wrap. -/
theorem wrapInt64_of_inRange (x : Int) (h1 : minInt64 ≤ x) (h2 : x ≤ maxInt64) :
    wrapInt64 x = x := by
  simp only [minInt64, maxInt64] at h1 h2
  simp only [wrapInt64]
  omega

/-! ## The counter store -/

theorem kvGet_kvSet (key val : String) (d : List (String × String)) :
    kvGet key (kvSet key val d) = some val := by
  induction d with
  | nil => simp [kvSet, kvGet]
  | cons kv rest ih =>
    obtain ⟨k, v⟩ := kv
    by_cases hk : k = key
    · simp [kvSet, kvGet, hk]
    · simp [kvSet, kvGet, hk, ih]

/-! ## Traces -/

theorem forwarded_append (a b : List Effect) : forwarded (a ++ b) = forwarded a ++ forwarded b := by
  induction a with
  | nil => rfl
  | cons e rest ih => cases e <;> simp [forwarded, ih]

theorem failures_append (a b : List Effect) : failures (a ++ b) = failures a ++ failures b := by
  induction a with
  | nil => rfl
  | cons e rest ih => cases e <;> simp [failures, ih]

/-! ## Admission: one request -/

/-- The first request of a window: the key is absent, it is set to `limit - 1`, the request
is admitted. -/
theorem admission_first_request (rl : ratelimit.RateLimiter) (next : Handler) (r : Request)
    (t : Tenant) (w : World) (ht : r.tenant = some t) (hup : w.redis.up = true)
    (habs : kvGet ("ratelimit:" ++ t.ID) w.redis.data = none) :
    rl.Middleware next r w =
      next r
        { w with
          redis := ⟨true, kvSet ("ratelimit:" ++ t.ID) (Itoa (wrapInt64 (rl.limit - 1))) w.redis.data⟩
          trace := w.trace ++
            [Effect.redis (RedisCmd.get ("ratelimit:" ++ t.ID)),
              Effect.redis (RedisCmd.set ("ratelimit:" ++ t.ID) (wrapInt64 (rl.limit - 1)) rl.refill),
              Effect.log ⟨.ALLOW, "Rate limit OK (first request)", r.TenantHeader, r.Path,
                r.Method, r.RequestID,
                [("tenant", Any.str t.ID), ("limit", Any.int rl.limit), ("used", Any.int 1)]⟩] } := by
  simp [ratelimit.RateLimiter.Middleware, ht, Redis.Get, Redis.Set, hup, habs, decisionlog.LogDecision,
    World.emit]

/-- A later request of the window while tokens remain: the key is decremented and the
request is admitted. -/
theorem admission_with_tokens (rl : ratelimit.RateLimiter) (next : Handler) (r : Request)
    (t : Tenant) (w : World) (n : Nat) (ht : r.tenant = some t) (hup : w.redis.up = true)
    (hval : kvGet ("ratelimit:" ++ t.ID) w.redis.data = some (Itoa (n : Int)))
    (hpos : 0 < n) (hmax : (n : Int) ≤ maxInt64) :
    rl.Middleware next r w =
      next r
        { w with
          redis := ⟨true, kvSet ("ratelimit:" ++ t.ID) (Itoa ((n : Int) - 1)) w.redis.data⟩
          trace := w.trace ++
            [Effect.redis (RedisCmd.get ("ratelimit:" ++ t.ID)),
              Effect.redis (RedisCmd.decr ("ratelimit:" ++ t.ID)),
              Effect.log ⟨.ALLOW, "Rate limit OK", r.TenantHeader, r.Path, r.Method, r.RequestID,
                [("tenant", Any.str t.ID), ("limit", Any.int rl.limit),
                  ("used", Any.int (n : Int))]⟩] } := by
  have hmin : ¬ ((n : Int) = minInt64) := by simp only [minInt64]; omega
  have hn : ¬ ((n : Int) ≤ 0) := by omega
  simp [ratelimit.RateLimiter.Middleware, ht, Redis.Get, Redis.Decr, hup, hval, decisionlog.LogDecision,
    World.emit, Atoi_Itoa n hmax, redisInt_Itoa n hmax, hmin, hn]

/-- A request of the window once the tokens are used up: it is denied with 429 and the
store is not written. -/
theorem admission_exhausted (rl : ratelimit.RateLimiter) (next : Handler) (r : Request)
    (t : Tenant) (w : World) (ht : r.tenant = some t) (hup : w.redis.up = true)
    (hval : kvGet ("ratelimit:" ++ t.ID) w.redis.data = some (Itoa 0)) :
    rl.Middleware next r w =
      { w with
        trace := w.trace ++
          [Effect.redis (RedisCmd.get ("ratelimit:" ++ t.ID)),
            Effect.log ⟨.BLOCK, "Rate limit exceeded", r.TenantHeader, r.Path, r.Method,
              r.RequestID,
              [("tenant", Any.str t.ID), ("limit", Any.int rl.limit), ("used", Any.int 0)]⟩,
            Effect.httpError "Rate limit exceeded" 429] } := by
  have h0 : Atoi (Itoa 0) = (0, none) := by decide
  simp [ratelimit.RateLimiter.Middleware, ht, Redis.Get, hup, hval, decisionlog.LogDecision,
    World.emit, h0, httpError]

/-! ## Admission: the requests of one window -/

/-- While tokens remain, every request of the tenant is admitted and takes one token. -/
theorem admission_run_with_tokens (rl : ratelimit.RateLimiter) (target : String) (t : Tenant) :
    ∀ (rs : List Request) (n : Nat) (w : World), w.redis.up = true →
      kvGet ("ratelimit:" ++ t.ID) w.redis.data = some (Itoa (n : Int)) →
      (n : Int) ≤ maxInt64 → rs.length ≤ n → (∀ r ∈ rs, r.tenant = some t) →
      (serveAll (rl.Middleware (proxy.ProxyHandler target)) rs w).redis.up = true ∧
      kvGet ("ratelimit:" ++ t.ID)
          (serveAll (rl.Middleware (proxy.ProxyHandler target)) rs w).redis.data =
        some (Itoa ((n - rs.length : Nat) : Int)) ∧
      forwarded (serveAll (rl.Middleware (proxy.ProxyHandler target)) rs w).trace =
        forwarded w.trace ++ rs ∧
      failures (serveAll (rl.Middleware (proxy.ProxyHandler target)) rs w).trace =
        failures w.trace := by
  intro rs
  induction rs with
  | nil =>
    intro n w hup hval _ _ _
    simp [serveAll, hup, hval]
  | cons r rest ih =>
    intro n w hup hval hmax hlen hrs
    have hlen1 : rest.length + 1 ≤ n := by simpa using hlen
    have hr := hrs r (List.mem_cons_self _ _)
    have hstep := admission_with_tokens rl (proxy.ProxyHandler target) r t w n hr hup hval
      (by omega) hmax
    have hcast : ((n - 1 : Nat) : Int) = (n : Int) - 1 := by omega
    simp only [serveAll, hstep]
    have := ih (n - 1)
      (proxy.ProxyHandler target r
        { w with
          redis := ⟨true, kvSet ("ratelimit:" ++ t.ID) (Itoa ((n : Int) - 1)) w.redis.data⟩
          trace := w.trace ++
            [Effect.redis (RedisCmd.get ("ratelimit:" ++ t.ID)),
              Effect.redis (RedisCmd.decr ("ratelimit:" ++ t.ID)),
              Effect.log ⟨.ALLOW, "Rate limit OK", r.TenantHeader, r.Path, r.Method, r.RequestID,
                [("tenant", Any.str t.ID), ("limit", Any.int rl.limit),
                  ("used", Any.int (n : Int))]⟩] })
      (by simp [proxy.ProxyHandler, World.emit])
      (by simp [proxy.ProxyHandler, World.emit, kvGet_kvSet, hcast])
      (by omega) (by omega) (fun x hx => hrs x (List.mem_cons_of_mem _ hx))
    obtain ⟨h1, h2, h3, h4⟩ := this
    refine ⟨h1, ?_, ?_, ?_⟩
    · rw [h2]
      have : n - 1 - rest.length = n - (r :: rest).length := by simp; omega
      rw [this]
    · rw [h3]
      simp [proxy.ProxyHandler, World.emit, forwarded_append, forwarded]
    · rw [h4]
      simp [proxy.ProxyHandler, World.emit, failures_append, failures]

/-- From a fresh window, up to `limit` requests of the tenant are all admitted. -/
theorem admission_run_fresh (rl : ratelimit.RateLimiter) (target : String) (t : Tenant)
    (rs : List Request) (w : World) (hlim : 1 ≤ rl.limit) (hmax : rl.limit ≤ maxInt64)
    (hup : w.redis.up = true) (habs : kvGet ("ratelimit:" ++ t.ID) w.redis.data = none)
    (hrs : ∀ r ∈ rs, r.tenant = some t) (hlen : (rs.length : Int) ≤ rl.limit) :
    forwarded (serveAll (rl.Middleware (proxy.ProxyHandler target)) rs w).trace =
      forwarded w.trace ++ rs ∧
    failures (serveAll (rl.Middleware (proxy.ProxyHandler target)) rs w).trace =
      failures w.trace ∧
    (rs ≠ [] →
      (serveAll (rl.Middleware (proxy.ProxyHandler target)) rs w).redis.up = true ∧
      kvGet ("ratelimit:" ++ t.ID)
          (serveAll (rl.Middleware (proxy.ProxyHandler target)) rs w).redis.data =
        some (Itoa (rl.limit - (rs.length : Int)))) := by
  cases rs with
  | nil => simp [serveAll]
  | cons r rest =>
    have hr := hrs r (List.mem_cons_self _ _)
    have hstep := admission_first_request rl (proxy.ProxyHandler target) r t w hr hup habs
    have hlen1 : (rest.length : Int) + 1 ≤ rl.limit := by simpa using hlen
    have hwrap : wrapInt64 (rl.limit - 1) = rl.limit - 1 :=
      wrapInt64_of_inRange _ (by simp only [minInt64]; omega) (by omega)
    obtain ⟨L, hL⟩ : ∃ L : Nat, (L : Int) = rl.limit - 1 := ⟨(rl.limit - 1).toNat, by omega⟩
    simp only [serveAll, hstep, hwrap]
    have := admission_run_with_tokens rl target t rest L
      (proxy.ProxyHandler target r
        { w with
          redis := ⟨true, kvSet ("ratelimit:" ++ t.ID) (Itoa (rl.limit - 1)) w.redis.data⟩
          trace := w.trace ++
            [Effect.redis (RedisCmd.get ("ratelimit:" ++ t.ID)),
              Effect.redis (RedisCmd.set ("ratelimit:" ++ t.ID) (rl.limit - 1) rl.refill),
              Effect.log ⟨.ALLOW, "Rate limit OK (first request)", r.TenantHeader, r.Path,
                r.Method, r.RequestID,
                [("tenant", Any.str t.ID), ("limit", Any.int rl.limit), ("used", Any.int 1)]⟩] })
      (by simp [proxy.ProxyHandler, World.emit])
      (by simp [proxy.ProxyHandler, World.emit, kvGet_kvSet, hL])
      (by omega) (by omega) (fun x hx => hrs x (List.mem_cons_of_mem _ hx))
    obtain ⟨h1, h2, h3, h4⟩ := this
    refine ⟨?_, ?_, fun _ => ⟨h1, ?_⟩⟩
    · rw [h3]
      simp [proxy.ProxyHandler, World.emit, forwarded_append, forwarded]
    · rw [h4]
      simp [proxy.ProxyHandler, World.emit, failures_append, failures]
    · rw [h2]
      have : ((L - rest.length : Nat) : Int) = rl.limit - ((r :: rest).length : Int) := by
        simp only [List.length_cons, Nat.cast_add, Nat.cast_one]
        omega
      rw [this]

/-- C1: for every tenant and every limit of at least 1, from a window in which the tenant's
counter key is absent (the store being reachable) and with the tenant's requests handled one
after another, each of the first `limit` requests is admitted when it arrives: after any
`k ≤ limit` of them exactly those `k` requests have reached the backend, in order, and no
failure response was written.  The request after the first `limit` is denied: the stage
reads the counter, emits the block event "Rate limit exceeded", answers 429, and does not
invoke the downstream handler, whatever that handler is. -/
theorem admission_admits_limit_then_denies (rl : ratelimit.RateLimiter) (t : Tenant)
    (rs : List Request) (r' : Request) (next : Handler) (target : String) (w : World)
    (hlim : 1 ≤ rl.limit) (hmax : rl.limit ≤ maxInt64)
    (hup : w.redis.up = true) (habs : kvGet ("ratelimit:" ++ t.ID) w.redis.data = none)
    (hrs : ∀ r ∈ rs, r.tenant = some t) (hlen : (rs.length : Int) = rl.limit)
    (hr' : r'.tenant = some t) :
    (∀ k, k ≤ rs.length →
      forwarded (serveAll (rl.Middleware (proxy.ProxyHandler target)) (rs.take k) w).trace =
        forwarded w.trace ++ rs.take k ∧
      failures (serveAll (rl.Middleware (proxy.ProxyHandler target)) (rs.take k) w).trace =
        failures w.trace) ∧
    rl.Middleware next r' (serveAll (rl.Middleware (proxy.ProxyHandler target)) rs w) =
      httpError "Rate limit exceeded" 429
        (decisionlog.LogDecision r' .BLOCK "Rate limit exceeded"
          [("tenant", Any.str t.ID), ("limit", Any.int rl.limit), ("used", Any.int 0)]
          ((serveAll (rl.Middleware (proxy.ProxyHandler target)) rs w).emit
            (Effect.redis (RedisCmd.get ("ratelimit:" ++ t.ID))))) := by
  constructor
  · intro k hk
    have := admission_run_fresh rl target t (rs.take k) w hlim hmax hup habs
      (fun r hr => hrs r (List.mem_of_mem_take hr))
      (by rw [List.length_take]; omega)
    exact ⟨this.1, this.2.1⟩
  · have hne : rs ≠ [] := by
      intro h
      rw [h] at hlen
      simp at hlen
      omega
    have := admission_run_fresh rl target t rs w hlim hmax hup habs hrs (by omega)
    obtain ⟨hu, hv⟩ := this.2.2 hne
    rw [hlen, sub_self] at hv
    rw [admission_exhausted rl next r' t _ hr' hu hv]
    simp [httpError, decisionlog.LogDecision, World.emit]

/-- C1 at a concrete input: limit 2, two requests of tenant `t1` on an empty store, then a
third. -/
theorem admission_admits_limit_then_denies_witness :
    (ratelimit.NewRateLimiter 2 60).Middleware (proxy.ProxyHandler "c")
        ⟨"GET", "/users", "", "t1", some ⟨"t1"⟩⟩
        (serveAll ((ratelimit.NewRateLimiter 2 60).Middleware (proxy.ProxyHandler "b"))
          [⟨"GET", "/users", "", "t1", some ⟨"t1"⟩⟩, ⟨"GET", "/users", "", "t1", some ⟨"t1"⟩⟩]
          ⟨⟨true, []⟩, chaos.Config.empty, 0, 0, []⟩) =
      httpError "Rate limit exceeded" 429
        (decisionlog.LogDecision ⟨"GET", "/users", "", "t1", some ⟨"t1"⟩⟩ .BLOCK
          "Rate limit exceeded"
          [("tenant", Any.str "t1"), ("limit", Any.int 2), ("used", Any.int 0)]
          ((serveAll ((ratelimit.NewRateLimiter 2 60).Middleware (proxy.ProxyHandler "b"))
            [⟨"GET", "/users", "", "t1", some ⟨"t1"⟩⟩, ⟨"GET", "/users", "", "t1", some ⟨"t1"⟩⟩]
            ⟨⟨true, []⟩, chaos.Config.empty, 0, 0, []⟩).emit
            (Effect.redis (RedisCmd.get "ratelimit:t1")))) :=
  (admission_admits_limit_then_denies (ratelimit.NewRateLimiter 2 60) ⟨"t1"⟩
    [⟨"GET", "/users", "", "t1", some ⟨"t1"⟩⟩, ⟨"GET", "/users", "", "t1", some ⟨"t1"⟩⟩]
    ⟨"GET", "/users", "", "t1", some ⟨"t1"⟩⟩ (proxy.ProxyHandler "c") "b"
    ⟨⟨true, []⟩, chaos.Config.empty, 0, 0, []⟩ (by decide) (by decide) rfl rfl
    (by intro r hr; simp at hr; rw [hr]) (by decide) rfl).2

/-! ## Admission: the events of a window of five -/

/-- C9 (the code on the six requests of the claim): with limit 5 and tenant `t1` on an empty
store, six requests handled one after another produce five admit events followed by the
block event "Rate limit exceeded", but the `used` values of the five admit events are
1, 4, 3, 2, 1, not strictly decreasing: the first-request path logs the literal 1, its sibling
admit path the tokens read from the store. -/
theorem admission_used_values_not_decreasing :
    (decisions
        (serveAll ((ratelimit.NewRateLimiter 5 60000000000).Middleware (proxy.ProxyHandler "b"))
          (List.replicate 6 ⟨"GET", "/users", "", "t1", some ⟨"t1"⟩⟩)
          ⟨⟨true, []⟩, chaos.Config.empty, 0, 0, []⟩).trace).map eventSummary =
      [(.ALLOW, "Rate limit OK (first request)", some 1),
        (.ALLOW, "Rate limit OK", some 4), (.ALLOW, "Rate limit OK", some 3),
        (.ALLOW, "Rate limit OK", some 2), (.ALLOW, "Rate limit OK", some 1),
        (.BLOCK, "Rate limit exceeded", some 0)] ∧
    admitUsed (decisions
        (serveAll ((ratelimit.NewRateLimiter 5 60000000000).Middleware (proxy.ProxyHandler "b"))
          (List.replicate 6 ⟨"GET", "/users", "", "t1", some ⟨"t1"⟩⟩)
          ⟨⟨true, []⟩, chaos.Config.empty, 0, 0, []⟩).trace) = [1, 4, 3, 2, 1] ∧
    ¬ strictlyDecreasing (admitUsed (decisions
        (serveAll ((ratelimit.NewRateLimiter 5 60000000000).Middleware (proxy.ProxyHandler "b"))
          (List.replicate 6 ⟨"GET", "/users", "", "t1", some ⟨"t1"⟩⟩)
          ⟨⟨true, []⟩, chaos.Config.empty, 0, 0, []⟩).trace)) = true := by
  decide

theorem decisions_append (a b : List Effect) : decisions (a ++ b) = decisions a ++ decisions b := by
  induction a with
  | nil => rfl
  | cons e rest ih => cases e <;> simp [decisions, ih]

/-! ## Admission: a store that fails or holds something else than a counter -/

/-- When `ParseInt` reports a syntax error, the value it returns is 0. -/
theorem ParseInt_syntax_error_value (l : List Char)
    (h : (ParseInt l).2 = some NumError.ErrSyntax) : (ParseInt l).1 = 0 := by
  cases l with
  | nil => rfl
  | cons c0 tl =>
    simp only [ParseInt] at h ⊢
    split_ifs at h ⊢ <;> simp_all

/-- When `Atoi` reports a syntax error, the value it returns is 0. -/
theorem Atoi_syntax_error_value (s : String) (h : (Atoi s).2 = some NumError.ErrSyntax) :
    (Atoi s).1 = 0 := by
  unfold Atoi at h ⊢
  simp only [] at h ⊢
  by_cases hlen : 0 < s.utf8ByteSize ∧ s.utf8ByteSize < 19
  · rw [if_pos hlen] at h ⊢
    cases hl : s.toList with
    | nil => rfl
    | cons c0 tl =>
      rw [hl] at h
      simp only [] at h ⊢
      split_ifs at h ⊢ <;> simp_all
  · rw [if_neg hlen] at h ⊢
    exact ParseInt_syntax_error_value _ h

/-- C10 as stated fails: the stored value `9223372036854775808` does not parse as a Go
`int` (`Atoi` reports `ErrRange`), yet `Atoi` returns the largest `int` with the error, the
error is dropped, and the request is admitted: a decrement is sent to the store (which
rejects it and keeps the value) and the downstream handler is invoked. -/
theorem admission_admits_on_out_of_range_value :
    (Atoi "9223372036854775808").2 = some NumError.ErrRange ∧
    (ratelimit.NewRateLimiter 5 60000000000).Middleware (proxy.ProxyHandler "b")
        ⟨"GET", "/users", "", "t1", some ⟨"t1"⟩⟩
        ⟨⟨true, [("ratelimit:t1", "9223372036854775808")]⟩, chaos.Config.empty, 0, 0, []⟩ =
      ⟨⟨true, [("ratelimit:t1", "9223372036854775808")]⟩, chaos.Config.empty, 0, 0,
        [Effect.redis (RedisCmd.get "ratelimit:t1"),
          Effect.redis (RedisCmd.decr "ratelimit:t1"),
          Effect.log ⟨.ALLOW, "Rate limit OK", "t1", "/users", "GET", "",
            [("tenant", Any.str "t1"), ("limit", Any.int 5),
              ("used", Any.int 9223372036854775807)]⟩,
          Effect.forward "b" ⟨"GET", "/users", "", "t1", some ⟨"t1"⟩⟩]⟩ := by
  decide

/-- C10, amended: for a request with a resolved tenant, when the store's get fails with an
error other than key-absent, or returns a value on which `Atoi` reports a syntax error (a
value that is not a decimal numeral), the stage fails closed: the token count is 0, the stage
emits the block event "Rate limit exceeded" with `used = 0`, answers 429, does not invoke the
downstream handler, and sends neither a set nor a decrement to the store, which is left as
it was. -/
theorem admission_fails_closed (rl : ratelimit.RateLimiter) (next : Handler) (r : Request)
    (t : Tenant) (w : World) (ht : r.tenant = some t)
    (h : (w.redis.Get ("ratelimit:" ++ t.ID)).2 = some RedisError.Other ∨
      ((w.redis.Get ("ratelimit:" ++ t.ID)).2 = none ∧
        (Atoi (w.redis.Get ("ratelimit:" ++ t.ID)).1).2 = some NumError.ErrSyntax)) :
    rl.Middleware next r w =
      { w with
        trace := w.trace ++
          [Effect.redis (RedisCmd.get ("ratelimit:" ++ t.ID)),
            Effect.log ⟨.BLOCK, "Rate limit exceeded", r.TenantHeader, r.Path, r.Method,
              r.RequestID,
              [("tenant", Any.str t.ID), ("limit", Any.int rl.limit), ("used", Any.int 0)]⟩,
            Effect.httpError "Rate limit exceeded" 429] } := by
  have hnil : (w.redis.Get ("ratelimit:" ++ t.ID)).2 ≠ some RedisError.Nil := by
    rcases h with h | h
    · rw [h]; decide
    · rw [h.1]; decide
  have htok : (Atoi (w.redis.Get ("ratelimit:" ++ t.ID)).1).1 = 0 := by
    rcases h with h | h
    · have hval : (w.redis.Get ("ratelimit:" ++ t.ID)).1 = "" := by
        unfold Redis.Get at h ⊢
        split
        · rename_i hup
          rw [if_pos hup] at h
          split at h <;> simp at h
        · rfl
      rw [hval]
      decide
    · exact Atoi_syntax_error_value _ h.2
  simp [ratelimit.RateLimiter.Middleware, ht, hnil, htok, httpError, decisionlog.LogDecision, World.emit]

/-- C10, amended, at concrete inputs: a store that cannot be reached, and a stored value
`abc`. -/
theorem admission_fails_closed_witness :
    (ratelimit.NewRateLimiter 5 60).Middleware (proxy.ProxyHandler "b")
        ⟨"GET", "/users", "", "t1", some ⟨"t1"⟩⟩
        ⟨⟨false, []⟩, chaos.Config.empty, 0, 0, []⟩ =
      ⟨⟨false, []⟩, chaos.Config.empty, 0, 0,
        [Effect.redis (RedisCmd.get "ratelimit:t1"),
          Effect.log ⟨.BLOCK, "Rate limit exceeded", "t1", "/users", "GET", "",
            [("tenant", Any.str "t1"), ("limit", Any.int 5), ("used", Any.int 0)]⟩,
          Effect.httpError "Rate limit exceeded" 429]⟩ ∧
    (ratelimit.NewRateLimiter 5 60).Middleware (proxy.ProxyHandler "b")
        ⟨"GET", "/users", "", "t1", some ⟨"t1"⟩⟩
        ⟨⟨true, [("ratelimit:t1", "abc")]⟩, chaos.Config.empty, 0, 0, []⟩ =
      ⟨⟨true, [("ratelimit:t1", "abc")]⟩, chaos.Config.empty, 0, 0,
        [Effect.redis (RedisCmd.get "ratelimit:t1"),
          Effect.log ⟨.BLOCK, "Rate limit exceeded", "t1", "/users", "GET", "",
            [("tenant", Any.str "t1"), ("limit", Any.int 5), ("used", Any.int 0)]⟩,
          Effect.httpError "Rate limit exceeded" 429]⟩ :=
  ⟨admission_fails_closed (ratelimit.NewRateLimiter 5 60) (proxy.ProxyHandler "b")
      ⟨"GET", "/users", "", "t1", some ⟨"t1"⟩⟩ ⟨"t1"⟩
      ⟨⟨false, []⟩, chaos.Config.empty, 0, 0, []⟩ rfl (Or.inl (by decide)),
    admission_fails_closed (ratelimit.NewRateLimiter 5 60) (proxy.ProxyHandler "b")
      ⟨"GET", "/users", "", "t1", some ⟨"t1"⟩⟩ ⟨"t1"⟩
      ⟨⟨true, [("ratelimit:t1", "abc")]⟩, chaos.Config.empty, 0, 0, []⟩ rfl
      (Or.inr (by decide))⟩

/-! ## The composed pipeline -/

/-- C4 as stated fails: in the pipeline of `main` the router runs first and the chaos and
admission stages are inside the handler it dispatches to.  For a request to `/users` of
tenant `t1`, with no fault policy and an empty store, the events are the route event, then
the chaos event, then the admit event, so the admit event does not precede the route event. -/
theorem pipeline_route_event_is_first :
    (eventsOf main.finalHandler ⟨"GET", "/users", "", "t1", none⟩
        ⟨⟨true, []⟩, chaos.Config.empty, 0, 0, []⟩).map eventSummary =
      [(.ROUTE, "Routing to backend", none), (.CHAOS, "Chaos disabled", none),
        (.ALLOW, "Rate limit OK (first request)", some 1)] ∧
    ¬ (precedes isChaosEvent isAdmissionEvent
          (eventsOf main.finalHandler ⟨"GET", "/users", "", "t1", none⟩
            ⟨⟨true, []⟩, chaos.Config.empty, 0, 0, []⟩) = true ∧
        precedes isAdmissionEvent isRouteEvent
          (eventsOf main.finalHandler ⟨"GET", "/users", "", "t1", none⟩
            ⟨⟨true, []⟩, chaos.Config.empty, 0, 0, []⟩) = true) := by
  decide

/-- The admission stage, in front of a backend, emits exactly one event, and it is an
admit or block event of the stage. -/
theorem admission_emits_one_event (rl : ratelimit.RateLimiter) (target : String) (r : Request)
    (w : World) :
    ∃ a, isAdmissionEvent a = true ∧
      decisions (rl.Middleware (proxy.ProxyHandler target) r w).trace = decisions w.trace ++ [a] := by
  cases htn : r.tenant with
  | none =>
    refine ⟨⟨.BLOCK, "Tenant not found for rate limiting", r.TenantHeader, r.Path, r.Method,
      r.RequestID, []⟩, by simp [isAdmissionEvent], ?_⟩
    simp [ratelimit.RateLimiter.Middleware, htn, httpError, decisionlog.LogDecision, World.emit,
      decisions_append, decisions]
  | some t =>
    by_cases h1 : (w.redis.Get ("ratelimit:" ++ t.ID)).2 = some RedisError.Nil
    · refine ⟨⟨.ALLOW, "Rate limit OK (first request)", r.TenantHeader, r.Path, r.Method,
        r.RequestID,
        [("tenant", Any.str t.ID), ("limit", Any.int rl.limit), ("used", Any.int 1)]⟩,
        by simp [isAdmissionEvent], ?_⟩
      simp [ratelimit.RateLimiter.Middleware, htn, h1, decisionlog.LogDecision, World.emit,
        decisions_append, decisions, proxy.ProxyHandler]
    · by_cases h2 : (Atoi (w.redis.Get ("ratelimit:" ++ t.ID)).1).1 ≤ 0
      · refine ⟨⟨.BLOCK, "Rate limit exceeded", r.TenantHeader, r.Path, r.Method, r.RequestID,
          [("tenant", Any.str t.ID), ("limit", Any.int rl.limit),
            ("used", Any.int (Atoi (w.redis.Get ("ratelimit:" ++ t.ID)).1).1)]⟩,
          by simp [isAdmissionEvent], ?_⟩
        simp [ratelimit.RateLimiter.Middleware, htn, h1, h2, httpError, decisionlog.LogDecision,
          World.emit, decisions_append, decisions]
      · refine ⟨⟨.ALLOW, "Rate limit OK", r.TenantHeader, r.Path, r.Method, r.RequestID,
          [("tenant", Any.str t.ID), ("limit", Any.int rl.limit),
            ("used", Any.int (Atoi (w.redis.Get ("ratelimit:" ++ t.ID)).1).1)]⟩,
          by simp [isAdmissionEvent], ?_⟩
        simp [ratelimit.RateLimiter.Middleware, htn, h1, h2, decisionlog.LogDecision,
          World.emit, decisions_append, decisions, proxy.ProxyHandler]

/-- An admission event is neither a chaos event nor a route event. -/
theorem admissionEvent_kind (a : decisionlog.DecisionLog) (h : isAdmissionEvent a = true) :
    isChaosEvent a = false ∧ isRouteEvent a = false := by
  unfold isAdmissionEvent at h
  unfold isChaosEvent isRouteEvent
  cases hd : a.Decision <;> simp_all

/-- A route event is neither a chaos event nor an admission event. -/
theorem routeEvent_kind (a : decisionlog.DecisionLog) (h : isRouteEvent a = true) :
    isChaosEvent a = false ∧ isAdmissionEvent a = false := by
  unfold isRouteEvent at h
  unfold isChaosEvent isAdmissionEvent
  cases hd : a.Decision <;> simp_all

/-- A chaos event is neither a route event nor an admission event. -/
theorem chaosEvent_kind (a : decisionlog.DecisionLog) (h : isChaosEvent a = true) :
    isRouteEvent a = false ∧ isAdmissionEvent a = false := by
  unfold isChaosEvent at h
  unfold isRouteEvent isAdmissionEvent
  cases hd : a.Decision <;> simp_all

/-- The events of a trace after one more decision was logged. -/
theorem decisions_LogDecision (r : Request) (d : decisionlog.DecisionType) (reason : String)
    (extra : List (String × Any)) (w : World) :
    decisions (decisionlog.LogDecision r d reason extra w).trace =
      decisions w.trace ++ [⟨d, reason, r.TenantHeader, r.Path, r.Method, r.RequestID, extra⟩] := by
  simp [decisionlog.LogDecision, World.emit, decisions_append, decisions]

/-- Chaos events followed by at most one admission event are in stage order. -/
theorem chaosThenAdmission_append (cs as : List decisionlog.DecisionLog)
    (hcs : ∀ c ∈ cs, isChaosEvent c = true) (has : ∀ a ∈ as, isAdmissionEvent a = true)
    (hlen : as.length ≤ 1) : chaosThenAdmission (cs ++ as) = true := by
  induction cs with
  | nil =>
    match as, has, hlen with
    | [], _, _ => rfl
    | [a], has, _ => simp [chaosThenAdmission, has a (List.mem_singleton.2 rfl)]
    | _ :: _ :: _, _, hlen => simp at hlen
  | cons c rest ih =>
    have hc := hcs c (List.mem_cons_self _ _)
    have hrest := ih (fun x hx => hcs x (List.mem_cons_of_mem _ hx))
    cases hl : rest ++ as with
    | nil => simp [hl, chaosThenAdmission, hc]
    | cons x xs =>
      rw [hl] at hrest
      simp [hl, chaosThenAdmission, hc, hrest]

/-- When no event of the first part is a `q`-event and no event of the second part is a
`p`-event, every `p`-event precedes every `q`-event. -/
theorem precedes_append (p q : decisionlog.DecisionLog → Bool)
    (l1 l2 : List decisionlog.DecisionLog) (h1 : ∀ x ∈ l1, q x = false)
    (h2 : ∀ y ∈ l2, p y = false) : precedes p q (l1 ++ l2) = true := by
  induction l1 with
  | nil =>
    induction l2 with
    | nil => rfl
    | cons y ys ih =>
      have hy := h2 y (List.mem_cons_self _ _)
      have hys : ∀ z ∈ ys, p z = false := fun z hz => h2 z (List.mem_cons_of_mem _ hz)
      have hall : ys.all (fun z => !p z) = true := by
        simp only [List.all_eq_true, Bool.not_eq_true']
        exact hys
      have := ih hys
      simp only [List.nil_append] at this ⊢
      simp [precedes, hy, hall, this]
  | cons x xs ih =>
    have hx := h1 x (List.mem_cons_self _ _)
    have := ih (fun z hz => h1 z (List.mem_cons_of_mem _ hz))
    simp [precedes, hx, this]

/-- A secured handler adds chaos events and then at most one admission event. -/
theorem secured_events (rl : ratelimit.RateLimiter) (target : String) (r : Request)
    (w : World) :
    ∃ cs as,
      decisions (chaos.Middleware (tenant.Middleware (rl.Middleware (proxy.ProxyHandler target)))
        r w).trace = decisions w.trace ++ (cs ++ as) ∧
      (∀ c ∈ cs, isChaosEvent c = true) ∧ (∀ a ∈ as, isAdmissionEvent a = true) ∧
      as.length ≤ 1 := by
  -- what the admission stage adds behind any world reached by the chaos stage
  have hadm : ∀ w' : World, ∃ a, isAdmissionEvent a = true ∧
      decisions (tenant.Middleware (rl.Middleware (proxy.ProxyHandler target)) r w').trace =
        decisions w'.trace ++ [a] := by
    intro w'
    exact admission_emits_one_event rl target _ w'
  -- a chaos event logged by the stage, seen only through its kind
  have hlog : ∀ (reason : String) (extra : List (String × Any)) (v : World),
      ∃ c, isChaosEvent c = true ∧
        decisions (decisionlog.LogDecision r .CHAOS reason extra v).trace =
          decisions v.trace ++ [c] := by
    intro reason extra v
    exact ⟨_, by simp [isChaosEvent], decisions_LogDecision r .CHAOS reason extra v⟩
  -- the delay step adds at most one chaos event
  have hdelay : ∃ ds, (∀ c ∈ ds, isChaosEvent c = true) ∧
      decisions (chaos.injectDelay w.config r w).trace = decisions w.trace ++ ds := by
    unfold chaos.injectDelay
    split
    · obtain ⟨c, hc, hd⟩ := hlog "Injecting delay"
        [("delay_ms", Any.int (w.config.Delay.tdiv 1000000))] w
      refine ⟨[c], ?_, ?_⟩
      · intro x hx
        rw [List.mem_singleton.1 hx]
        exact hc
      · simp only [World.emit, decisions_append, decisions, List.append_nil] at hd ⊢
        exact hd
    · refine ⟨[], ?_, ?_⟩
      · intro x hx
        cases hx
      · rw [List.append_nil]
  have hone : ∀ c : decisionlog.DecisionLog, isChaosEvent c = true →
      ∀ x ∈ [c], isChaosEvent x = true := by
    intro c hc x hx
    rw [List.mem_singleton.1 hx]
    exact hc
  have hadd : ∀ (ds : List decisionlog.DecisionLog) (c : decisionlog.DecisionLog),
      (∀ x ∈ ds, isChaosEvent x = true) → isChaosEvent c = true →
      ∀ x ∈ ds ++ [c], isChaosEvent x = true := by
    intro ds c hds hc x hx
    rcases List.mem_append.1 hx with h | h
    · exact hds x h
    · exact hone c hc x h
  have hadmOne : ∀ a : decisionlog.DecisionLog, isAdmissionEvent a = true →
      ∀ x ∈ [a], isAdmissionEvent x = true := by
    intro a ha x hx
    rw [List.mem_singleton.1 hx]
    exact ha
  have hnone : ∀ x ∈ ([] : List decisionlog.DecisionLog), isAdmissionEvent x = true := by
    intro x hx
    cases hx
  unfold chaos.Middleware
  simp only [chaos.Get]
  split
  · obtain ⟨a, ha, hdec⟩ := hadm (decisionlog.LogDecision r .CHAOS "Chaos disabled" [] w)
    obtain ⟨c, hc, hd⟩ := hlog "Chaos disabled" [] w
    refine ⟨[c], [a], ?_, hone c hc, hadmOne a ha, by simp⟩
    rw [hdec, hd]
    simp
  split
  · obtain ⟨a, ha, hdec⟩ :=
      hadm (decisionlog.LogDecision r .CHAOS "Chaos not active for this route" [] w)
    obtain ⟨c, hc, hd⟩ := hlog "Chaos not active for this route" [] w
    refine ⟨[c], [a], ?_, hone c hc, hadmOne a ha, by simp⟩
    rw [hdec, hd]
    simp
  obtain ⟨ds, hds, hdd⟩ := hdelay
  split
  · obtain ⟨c, hc, hd⟩ := hlog "Injecting error" [("error_code", Any.int 503)]
      (chaos.injectDelay w.config r w)
    refine ⟨ds ++ [c], [], ?_, hadd ds c hds hc, hnone, by simp⟩
    simp only [httpError, World.emit, decisions_append, decisions, List.append_nil]
    rw [hd, hdd]
    simp
  split
  · obtain ⟨c, hc, hd⟩ := hlog "Dropping request" [] (chaos.injectDelay w.config r w)
    refine ⟨ds ++ [c], [], ?_, hadd ds c hds hc, hnone, by simp⟩
    rw [hd, hdd]
    simp
  obtain ⟨a, ha, hdec⟩ := hadm (chaos.injectDelay w.config r w)
  refine ⟨ds, [a], ?_, hds, hadmOne a ha, by simp⟩
  rw [hdec, hdd]
  simp

/-- Behind the route event of the router, the events of a secured handler are in stage
order. -/
theorem routed_secured_events (rl : ratelimit.RateLimiter) (target pfx : String) (r : Request)
    (w : World) :
    routeThenSecured pfx r
        (decisions (chaos.Middleware (tenant.Middleware (rl.Middleware (proxy.ProxyHandler target)))
          r (decisionlog.LogDecision r .ROUTE "Routing to backend" [("target", Any.str pfx)]
            { w with trace := [] })).trace) = true ∧
    precedes isRouteEvent isChaosEvent
        (decisions (chaos.Middleware (tenant.Middleware (rl.Middleware (proxy.ProxyHandler target)))
          r (decisionlog.LogDecision r .ROUTE "Routing to backend" [("target", Any.str pfx)]
            { w with trace := [] })).trace) = true ∧
    precedes isChaosEvent isAdmissionEvent
        (decisions (chaos.Middleware (tenant.Middleware (rl.Middleware (proxy.ProxyHandler target)))
          r (decisionlog.LogDecision r .ROUTE "Routing to backend" [("target", Any.str pfx)]
            { w with trace := [] })).trace) = true ∧
    precedes isRouteEvent isAdmissionEvent
        (decisions (chaos.Middleware (tenant.Middleware (rl.Middleware (proxy.ProxyHandler target)))
          r (decisionlog.LogDecision r .ROUTE "Routing to backend" [("target", Any.str pfx)]
            { w with trace := [] })).trace) = true := by
  obtain ⟨cs, as, hev, hcs, has, hlen⟩ := secured_events rl target r
    (decisionlog.LogDecision r .ROUTE "Routing to backend" [("target", Any.str pfx)]
      { w with trace := [] })
  have hρ : isRouteEvent ⟨.ROUTE, "Routing to backend", r.TenantHeader, r.Path, r.Method,
      r.RequestID, [("target", Any.str pfx)]⟩ = true := by simp [isRouteEvent]
  obtain ⟨hρc, hρa⟩ := routeEvent_kind _ hρ
  rw [hev, decisions_LogDecision]
  simp only [decisions, List.nil_append, List.singleton_append]
  refine ⟨?_, ?_, ?_, ?_⟩
  · simp [routeThenSecured, chaosThenAdmission_append cs as hcs has hlen]
  · refine precedes_append isRouteEvent isChaosEvent [_] (cs ++ as) ?_ ?_
    · intro x hx
      rw [List.mem_singleton.1 hx]
      exact hρc
    · intro y hy
      rcases List.mem_append.1 hy with h | h
      · exact (chaosEvent_kind y (hcs y h)).1
      · exact (admissionEvent_kind y (has y h)).2
  · have := precedes_append isChaosEvent isAdmissionEvent (_ :: cs) as (by
        intro x hx
        rcases List.mem_cons.1 hx with h | h
        · rw [h]
          exact hρa
        · exact (chaosEvent_kind x (hcs x h)).2) (by
        intro y hy
        exact (admissionEvent_kind y (has y hy)).1)
    simpa using this
  · refine precedes_append isRouteEvent isAdmissionEvent [_] (cs ++ as) ?_ ?_
    · intro x hx
      rw [List.mem_singleton.1 hx]
      exact hρa
    · intro y hy
      rcases List.mem_append.1 hy with h | h
      · exact (chaosEvent_kind y (hcs y h)).1
      · exact (admissionEvent_kind y (has y h)).2

/-- C4, amended: in the pipeline composed in `main` the stage order of every request is
fixed with dispatch first.  When the path starts with `/users`, or else with `/orders`, the
router emits its route event and then invokes the secured handler of that binding, and
the decision events of the request are the route event first, then the chaos events of
the fault-injection stage, then, as the last event when admission is reached, the one admit
or block event of the admission stage.  When the path starts with neither, the only event is
the router's block event "Route not found".  So the route event precedes every chaos event
and the admission event, and every chaos event precedes the admission event. -/
theorem pipeline_stage_order (r : Request) (w : World) :
    ((proxy.HasPrefix r.Path "/users" = true ∧
        main.finalHandler r w =
          main.securedUserHandler r
            (decisionlog.LogDecision r .ROUTE "Routing to backend"
              [("target", Any.str "/users")] w) ∧
        routeThenSecured "/users" r (eventsOf main.finalHandler r w) = true) ∨
      (proxy.HasPrefix r.Path "/users" = false ∧ proxy.HasPrefix r.Path "/orders" = true ∧
        main.finalHandler r w =
          main.securedOrderHandler r
            (decisionlog.LogDecision r .ROUTE "Routing to backend"
              [("target", Any.str "/orders")] w) ∧
        routeThenSecured "/orders" r (eventsOf main.finalHandler r w) = true) ∨
      (proxy.HasPrefix r.Path "/users" = false ∧ proxy.HasPrefix r.Path "/orders" = false ∧
        main.finalHandler r w =
          httpNotFound (decisionlog.LogDecision r .BLOCK "Route not found" [] w) ∧
        eventsOf main.finalHandler r w =
          [⟨.BLOCK, "Route not found", r.TenantHeader, r.Path, r.Method, r.RequestID, []⟩])) ∧
    precedes isRouteEvent isChaosEvent (eventsOf main.finalHandler r w) = true ∧
    precedes isChaosEvent isAdmissionEvent (eventsOf main.finalHandler r w) = true ∧
    precedes isRouteEvent isAdmissionEvent (eventsOf main.finalHandler r w) = true := by
  have hfinal : ∀ v : World, main.finalHandler r v =
      if proxy.HasPrefix r.Path "/users" = true then
        main.securedUserHandler r
          (decisionlog.LogDecision r .ROUTE "Routing to backend" [("target", Any.str "/users")] v)
      else if proxy.HasPrefix r.Path "/orders" = true then
        main.securedOrderHandler r
          (decisionlog.LogDecision r .ROUTE "Routing to backend" [("target", Any.str "/orders")] v)
      else httpNotFound (decisionlog.LogDecision r .BLOCK "Route not found" [] v) := by
    intro v
    simp only [main.finalHandler, middleware.Logging, middleware.Metrics,
      middleware.Tracing, main.router, proxy.Router.ServeHTTP, proxy.Router.AddRoute,
      proxy.NewRouter, List.nil_append, List.cons_append, proxy.serveRoutes]
  by_cases hU : proxy.HasPrefix r.Path "/users" = true
  · have hev : eventsOf main.finalHandler r w =
        decisions (main.securedUserHandler r
          (decisionlog.LogDecision r .ROUTE "Routing to backend" [("target", Any.str "/users")]
            { w with trace := [] })).trace := by
      unfold eventsOf
      rw [hfinal, if_pos hU]
    obtain ⟨h1, h2, h3, h4⟩ := routed_secured_events main.rl "http://localhost:9001" "/users" r w
    rw [hev]
    refine ⟨Or.inl ⟨hU, ?_, h1⟩, h2, h3, h4⟩
    rw [hfinal, if_pos hU]
  · have hU' : proxy.HasPrefix r.Path "/users" = false := by simpa using hU
    by_cases hO : proxy.HasPrefix r.Path "/orders" = true
    · have hev : eventsOf main.finalHandler r w =
          decisions (main.securedOrderHandler r
            (decisionlog.LogDecision r .ROUTE "Routing to backend"
              [("target", Any.str "/orders")] { w with trace := [] })).trace := by
        unfold eventsOf
        rw [hfinal, if_neg hU, if_pos hO]
      obtain ⟨h1, h2, h3, h4⟩ :=
        routed_secured_events main.rl "http://localhost:9002" "/orders" r w
      rw [hev]
      refine ⟨Or.inr (Or.inl ⟨hU', hO, ?_, h1⟩), h2, h3, h4⟩
      rw [hfinal, if_neg hU, if_pos hO]
    · have hO' : proxy.HasPrefix r.Path "/orders" = false := by simpa using hO
      have hev : eventsOf main.finalHandler r w =
          [⟨.BLOCK, "Route not found", r.TenantHeader, r.Path, r.Method, r.RequestID, []⟩] := by
        unfold eventsOf
        rw [hfinal, if_neg hU, if_neg hO]
        simp [httpNotFound, World.emit, decisions_append, decisions, decisions_LogDecision]
      rw [hev]
      refine ⟨Or.inr (Or.inr ⟨hU', hO', ?_, rfl⟩), ?_, ?_, ?_⟩
      · rw [hfinal, if_neg hU, if_neg hO]
      · simp [precedes, isRouteEvent, isChaosEvent]
      · simp [precedes, isChaosEvent, isAdmissionEvent]
      · simp [precedes, isRouteEvent, isAdmissionEvent]

end Gateway
